import Mathlib

/-!
Shallow embedding of `src/rts_sim.py` (RTS Game Simulation).

Python floats are modelled as real numbers; `math.hypot dx dy` is
`Real.sqrt (dx ^ 2 + dy ^ 2)`.  Mutable `Unit` objects become records in a
list indexed by position; the per-tick loop of `main` becomes a fold over
the list of indices of units alive at tick start, mirroring the fact that
the Python "alive snapshot" freezes membership while reads of position and
health during the tick see mutations made earlier in the same tick.
-/

namespace RTS

open scoped Classical

noncomputable section

/-- Python `math.hypot`. -/
def hypot (dx dy : ℝ) : ℝ := Real.sqrt (dx ^ 2 + dy ^ 2)

/-- Python `class UnitType` (rts_sim.py lines 10-16): immutable stat block. -/
structure UnitType where
  max_health : ℝ
  move_speed : ℝ
  weapon_range : ℝ
  weapon_damage : ℝ
  weapon_cooldown : ℝ

/-- Python `class Unit` (rts_sim.py lines 19-32): mutable combat entity.  Stats are
copied by value from the UnitType at construction. -/
structure Unit where
  type_name : String
  team_name : String
  x : ℝ
  y : ℝ
  health : ℝ
  move_speed : ℝ
  weapon_range : ℝ
  weapon_damage : ℝ
  weapon_cooldown : ℝ
  last_attack_time : ℝ

/-- Positional constructor used to spell out concrete units in examples:
the arguments follow the field order of `Unit` (type, team, x, y, health,
moveSpeed, weaponRange, weaponDamage, weaponCooldown, lastAttackTime). -/
def unitOf (tn tm : String) (x y h ms wr wd wc lat : ℝ) : Unit :=
  ⟨tn, tm, x, y, h, ms, wr, wd, wc, lat⟩

/-- Constructor `Unit.__init__` (lines 20-32): stats copied from the registry entry,
`health = max_health`, `last_attack_time = -1e9`. -/
def mkUnit (type_name team_name : String) (x y : ℝ) (ut : UnitType) : Unit :=
  { type_name := type_name
    team_name := team_name
    x := x
    y := y
    health := ut.max_health
    move_speed := ut.move_speed
    weapon_range := ut.weapon_range
    weapon_damage := ut.weapon_damage
    weapon_cooldown := ut.weapon_cooldown
    last_attack_time := -1e9 }

/-- Method `Unit.is_alive` (lines 34-35). -/
def Unit.is_alive (u : Unit) : Prop := u.health > 0

/-- Method `Unit.distance_to` (lines 37-40). -/
def Unit.distance_to (u o : Unit) : ℝ := hypot (u.x - o.x) (u.y - o.y)

/-- Method `Unit.move_toward_origin` (lines 42-59): epsilon dead zone, exact snap
to the origin on overshoot, otherwise move a `step / dist` fraction of the
vector to the origin. -/
def Unit.move_toward_origin (u : Unit) (dt : ℝ) : Unit :=
  if |u.x| < 1e-6 ∧ |u.y| < 1e-6 then u
  else if hypot u.x u.y < 1e-6 then u
  else if u.move_speed * dt ≥ hypot u.x u.y then { u with x := 0, y := 0 }
  else
    { u with x := u.x - u.x * (u.move_speed * dt / hypot u.x u.y),
             y := u.y - u.y * (u.move_speed * dt / hypot u.x u.y) }

/-- Distance of a unit from the origin, as the code computes it. -/
def Unit.origin_dist (u : Unit) : ℝ := hypot u.x u.y

theorem hypot_nonneg (dx dy : ℝ) : 0 ≤ hypot dx dy := Real.sqrt_nonneg _

theorem hypot_zero_zero : hypot 0 0 = 0 := by
  simp [hypot]

theorem abs_le_hypot_left (dx dy : ℝ) : |dx| ≤ hypot dx dy := by
  rw [hypot, ← Real.sqrt_sq_eq_abs]
  exact Real.sqrt_le_sqrt (by nlinarith [sq_nonneg dy])

theorem hypot_smul (a dx dy : ℝ) : hypot (dx * a) (dy * a) = hypot dx dy * |a| := by
  rw [hypot, hypot, ← Real.sqrt_sq_eq_abs, ← Real.sqrt_mul (by positivity)]
  ring_nf

theorem abs_le_hypot_right (dx dy : ℝ) : |dy| ≤ hypot dx dy := by
  rw [hypot, ← Real.sqrt_sq_eq_abs]
  exact Real.sqrt_le_sqrt (by nlinarith [sq_nonneg dx])

theorem hypot_axis (x : ℝ) : hypot x 0 = |x| := by
  rw [hypot]
  simpa using Real.sqrt_sq_eq_abs x

/-- Outside the epsilon dead zone the distance to the origin is at least
the epsilon itself, so the redundant second check of
`move_toward_origin` never fires. -/
theorem origin_dist_ge_eps (u : Unit) (h : ¬(|u.x| < 1e-6 ∧ |u.y| < 1e-6)) :
    (1e-6 : ℝ) ≤ u.origin_dist := by
  rcases not_and_or.mp h with h1 | h1
  · exact le_trans (not_lt.mp h1) (abs_le_hypot_left _ _)
  · exact le_trans (not_lt.mp h1) (abs_le_hypot_right _ _)

/-- Claim C3 (amended): for a unit outside the epsilon dead zone
(`|x| ≥ 1e-6` or `|y| ≥ 1e-6`), the movement fallback leaves it at
Euclidean distance `max 0 (originalDistance - moveSpeed * dt)` from the
origin, snapping exactly to `(0, 0)` on overshoot; a unit inside the
epsilon dead zone does not move at all. -/
theorem c3_amended_move_distance (u : Unit) (dt : ℝ) :
    (¬(|u.x| < 1e-6 ∧ |u.y| < 1e-6) →
      (u.move_toward_origin dt).origin_dist = max 0 (u.origin_dist - u.move_speed * dt)) ∧
    ((|u.x| < 1e-6 ∧ |u.y| < 1e-6) → u.move_toward_origin dt = u) := by
  constructor
  · intro h
    have hd : (1e-6 : ℝ) ≤ hypot u.x u.y := origin_dist_ge_eps u h
    have hd0 : 0 < hypot u.x u.y := lt_of_lt_of_le (by norm_num) hd
    rw [Unit.move_toward_origin, if_neg h, if_neg (not_lt.mpr hd)]
    by_cases hs : u.move_speed * dt ≥ hypot u.x u.y
    · rw [if_pos hs]
      have hle : u.origin_dist - u.move_speed * dt ≤ 0 := by
        have : hypot u.x u.y ≤ u.move_speed * dt := hs
        simp only [Unit.origin_dist]
        linarith
      simp only [Unit.origin_dist, hypot_zero_zero]
      exact (max_eq_left hle).symm
    · rw [if_neg hs]
      push_neg at hs
      have hfrac : 0 ≤ 1 - u.move_speed * dt / hypot u.x u.y := by
        have := (div_lt_one hd0).mpr hs
        linarith
      have hx : u.x - u.x * (u.move_speed * dt / hypot u.x u.y) =
          u.x * (1 - u.move_speed * dt / hypot u.x u.y) := by ring
      have hy : u.y - u.y * (u.move_speed * dt / hypot u.x u.y) =
          u.y * (1 - u.move_speed * dt / hypot u.x u.y) := by ring
      simp only [Unit.origin_dist, hx, hy, hypot_smul, abs_of_nonneg hfrac]
      rw [mul_sub, mul_one, mul_div_cancel₀ _ (ne_of_gt hd0)]
      exact (max_eq_right (by linarith)).symm
  · intro h
    rw [Unit.move_toward_origin, if_pos h]

/-- Claim C3 witness: a unit at `(3, 0)` with `moveSpeed = 60` and
`dt = 1/60` ends at distance `max 0 (3 - 1) = 2`, and a unit at
`(1e-7, 0)` is inside the dead zone and does not move. -/
theorem c3_amended_move_distance_witness :
    ((unitOf "t" "A" 3 0 1 60 1 1 1 0).move_toward_origin (1 / 60)).origin_dist =
      max 0 ((unitOf "t" "A" 3 0 1 60 1 1 1 0).origin_dist - 60 * (1 / 60)) ∧
    (unitOf "t" "A" 1e-7 0 1 60 1 1 1 0).move_toward_origin (1 / 60) =
      unitOf "t" "A" 1e-7 0 1 60 1 1 1 0 :=
  ⟨(c3_amended_move_distance (unitOf "t" "A" 3 0 1 60 1 1 1 0) (1 / 60)).1
      (by norm_num [unitOf, abs_lt]),
   (c3_amended_move_distance (unitOf "t" "A" 1e-7 0 1 60 1 1 1 0) (1 / 60)).2
      (by norm_num [unitOf, abs_lt])⟩

/-- Claim C3 counterexample: the unit at `(1e-7, 0)` with
`moveSpeed * dt = 1` performs the movement fallback, yet its post-move
distance from the origin is `1e-7`, not `max 0 (1e-7 - 1) = 0`: the
epsilon dead zone violates the exact distance formula. -/
theorem c3_counterexample :
    ((unitOf "t" "A" 1e-7 0 1 60 1 1 1 0).move_toward_origin (1 / 60)).origin_dist ≠
      max 0 ((unitOf "t" "A" 1e-7 0 1 60 1 1 1 0).origin_dist - 60 * (1 / 60)) := by
  rw [Unit.move_toward_origin, if_pos (by norm_num [unitOf, abs_lt])]
  simp only [unitOf, Unit.origin_dist, hypot_axis]
  rw [abs_of_nonneg (by norm_num : (0:ℝ) ≤ 1e-7)]
  rw [max_eq_left (by norm_num : (1e-7 : ℝ) - 60 * (1 / 60) ≤ 0)]
  norm_num

/-- Claim C7 (amended): `lastAttackTime` is initialized to the finite
sentinel `-1e9`; at any simulated time `t ≥ 0` the cooldown check
`t - lastAttackTime ≥ weaponCooldown` passes for a freshly constructed
unit provided `weaponCooldown ≤ 1e9` (the sentinel is large but finite,
so it does not unblock arbitrarily large cooldowns). -/
theorem c7_amended_first_attack_unblocked (tn tm : String) (x y t : ℝ) (ut : UnitType) :
    (mkUnit tn tm x y ut).last_attack_time = -1e9 ∧
    (0 ≤ t → ut.weapon_cooldown ≤ 1e9 →
      t - (mkUnit tn tm x y ut).last_attack_time ≥ (mkUnit tn tm x y ut).weapon_cooldown) := by
  refine ⟨rfl, fun ht hc => ?_⟩
  simp only [mkUnit]
  norm_num
  linarith

/-- Claim C7 witness: a fresh unit with cooldown `1` can attack at `t = 0`. -/
theorem c7_amended_first_attack_unblocked_witness :
    (mkUnit "a" "A" 0 0 ⟨100, 1, 5, 10, 1⟩).last_attack_time = -1e9 ∧
      (0 : ℝ) - (mkUnit "a" "A" 0 0 ⟨100, 1, 5, 10, 1⟩).last_attack_time ≥
        (mkUnit "a" "A" 0 0 ⟨100, 1, 5, 10, 1⟩).weapon_cooldown :=
  ⟨(c7_amended_first_attack_unblocked "a" "A" 0 0 0 ⟨100, 1, 5, 10, 1⟩).1,
   (c7_amended_first_attack_unblocked "a" "A" 0 0 0 ⟨100, 1, 5, 10, 1⟩).2
      le_rfl (by norm_num)⟩

/-- Claim C7 counterexample: with the positive cooldown `2e9` the freshly
constructed unit IS blocked at simulated time `t = 0`, because the
sentinel is the finite value `-1e9`, not infinity: `0 - (-1e9) = 1e9 < 2e9`.
The claim fails for unbounded cooldowns. -/
theorem c7_counterexample :
    (0 : ℝ) < (2e9 : ℝ) ∧
      ¬((0 : ℝ) - (mkUnit "a" "A" 0 0 ⟨100, 1, 5, 10, 2e9⟩).last_attack_time ≥
        (mkUnit "a" "A" 0 0 ⟨100, 1, 5, 10, 2e9⟩).weapon_cooldown) := by
  constructor
  · norm_num
  · simp only [mkUnit]
    norm_num

/-- Targeting scan of the Combat Resolver (rts_sim.py lines 193-202):
iterate over the alive-snapshot indices, skip same-team entries, keep the
strictly closer of the current best and the candidate.  `none` plays the
role of the initial `nearest_dist = inf`. -/
def findNearest (u : Unit) (us : List Unit) : List ℕ → Option (ℕ × ℝ) → Option (ℕ × ℝ)
  | [], best => best
  | k :: rest, best =>
    match us[k]? with
    | none => findNearest u us rest best
    | some o =>
      if o.team_name = u.team_name then findNearest u us rest best
      else
        match best with
        | none => findNearest u us rest (some (k, u.distance_to o))
        | some (b, bd) =>
          if u.distance_to o < bd then findNearest u us rest (some (k, u.distance_to o))
          else findNearest u us rest (some (b, bd))

/-- Invariant of the targeting scan relative to a non-empty accumulator:
the result is either the accumulator itself (and every enemy scanned is no
closer than it), or an enemy strictly closer than the accumulator that is
first among the scanned enemies at its distance. -/
theorem findNearest_acc_spec (u : Unit) (us : List Unit) :
    ∀ (idxs : List ℕ) (b : ℕ) (bd : ℝ) (j : ℕ) (d : ℝ),
      findNearest u us idxs (some (b, bd)) = some (j, d) →
      ((j = b ∧ d = bd ∧ ∀ k ∈ idxs, ∀ p : Unit, us[k]? = some p →
          p.team_name ≠ u.team_name → bd ≤ u.distance_to p) ∨
        (∃ o : Unit, us[j]? = some o ∧ o.team_name ≠ u.team_name ∧
          d = u.distance_to o ∧ d < bd ∧
          ∃ la lb, idxs = la ++ j :: lb ∧
            (∀ k ∈ la, ∀ p : Unit, us[k]? = some p →
              p.team_name ≠ u.team_name → d < u.distance_to p) ∧
            (∀ k ∈ lb, ∀ p : Unit, us[k]? = some p →
              p.team_name ≠ u.team_name → d ≤ u.distance_to p))) := by
  intro idxs
  induction idxs with
  | nil =>
    intro b bd j d h
    simp only [findNearest, Option.some.injEq, Prod.mk.injEq] at h
    exact Or.inl ⟨h.1.symm, h.2.symm, by simp⟩
  | cons k rest ih =>
    intro b bd j d h
    simp only [findNearest] at h
    cases hk : us[k]? with
    | none =>
      rw [hk] at h
      simp only at h
      rcases ih b bd j d h with ⟨h1, h2, h3⟩ | ⟨o, ho, hteam, hd, hlt, la, lb, hsplit, hla, hlb⟩
      · refine Or.inl ⟨h1, h2, ?_⟩
        intro m hm p hp hpt
        rcases List.mem_cons.mp hm with rfl | hm
        · rw [hk] at hp; exact absurd hp (by simp)
        · exact h3 m hm p hp hpt
      · refine Or.inr ⟨o, ho, hteam, hd, hlt, k :: la, lb, by rw [hsplit]; rfl, ?_, hlb⟩
        intro m hm p hp hpt
        rcases List.mem_cons.mp hm with rfl | hm
        · rw [hk] at hp; exact absurd hp (by simp)
        · exact hla m hm p hp hpt
    | some o =>
      rw [hk] at h
      simp only at h
      by_cases hteam : o.team_name = u.team_name
      · rw [if_pos hteam] at h
        rcases ih b bd j d h with ⟨h1, h2, h3⟩ | ⟨o', ho, hteam', hd, hlt, la, lb, hsplit, hla, hlb⟩
        · refine Or.inl ⟨h1, h2, ?_⟩
          intro m hm p hp hpt
          rcases List.mem_cons.mp hm with rfl | hm
          · rw [hk] at hp
            cases hp
            exact absurd hteam hpt
          · exact h3 m hm p hp hpt
        · refine Or.inr ⟨o', ho, hteam', hd, hlt, k :: la, lb, by rw [hsplit]; rfl, ?_, hlb⟩
          intro m hm p hp hpt
          rcases List.mem_cons.mp hm with rfl | hm
          · rw [hk] at hp
            cases hp
            exact absurd hteam hpt
          · exact hla m hm p hp hpt
      · rw [if_neg hteam] at h
        by_cases hclose : u.distance_to o < bd
        · rw [if_pos hclose] at h
          rcases ih k (u.distance_to o) j d h with ⟨h1, h2, h3⟩ |
            ⟨o', ho, hteam', hd, hlt, la, lb, hsplit, hla, hlb⟩
          · subst h1
            refine Or.inr ⟨o, hk, hteam, h2, h2 ▸ hclose, [], rest, rfl, by simp, ?_⟩
            intro m hm p hp hpt
            exact h2 ▸ h3 m hm p hp hpt
          · refine Or.inr ⟨o', ho, hteam', hd, lt_trans hlt hclose, k :: la, lb,
              by rw [hsplit]; rfl, ?_, hlb⟩
            intro m hm p hp hpt
            rcases List.mem_cons.mp hm with rfl | hm
            · rw [hk] at hp
              cases hp
              exact hlt
            · exact hla m hm p hp hpt
        · rw [if_neg hclose] at h
          rcases ih b bd j d h with ⟨h1, h2, h3⟩ |
            ⟨o', ho, hteam', hd, hlt, la, lb, hsplit, hla, hlb⟩
          · refine Or.inl ⟨h1, h2, ?_⟩
            intro m hm p hp hpt
            rcases List.mem_cons.mp hm with rfl | hm
            · rw [hk] at hp
              cases hp
              exact not_lt.mp hclose
            · exact h3 m hm p hp hpt
          · refine Or.inr ⟨o', ho, hteam', hd, hlt, k :: la, lb, by rw [hsplit]; rfl, ?_, hlb⟩
            intro m hm p hp hpt
            rcases List.mem_cons.mp hm with rfl | hm
            · rw [hk] at hp
              cases hp
              exact lt_of_lt_of_le hlt (not_lt.mp hclose)
            · exact hla m hm p hp hpt

/-- Full specification of the targeting scan started (as the resolver
starts it) from the empty accumulator, i.e. from `nearest_dist = inf`. -/
theorem findNearest_spec (u : Unit) (us : List Unit) :
    ∀ (idxs : List ℕ) (j : ℕ) (d : ℝ),
      findNearest u us idxs none = some (j, d) →
      ∃ o : Unit, us[j]? = some o ∧ o.team_name ≠ u.team_name ∧ d = u.distance_to o ∧
        ∃ la lb, idxs = la ++ j :: lb ∧
          (∀ k ∈ la, ∀ p : Unit, us[k]? = some p →
            p.team_name ≠ u.team_name → d < u.distance_to p) ∧
          (∀ k ∈ lb, ∀ p : Unit, us[k]? = some p →
            p.team_name ≠ u.team_name → d ≤ u.distance_to p) := by
  intro idxs
  induction idxs with
  | nil =>
    intro j d h
    simp [findNearest] at h
  | cons k rest ih =>
    intro j d h
    simp only [findNearest] at h
    cases hk : us[k]? with
    | none =>
      rw [hk] at h
      simp only at h
      obtain ⟨o, ho, ht, hd, la, lb, hsplit, hla, hlb⟩ := ih j d h
      refine ⟨o, ho, ht, hd, k :: la, lb, by rw [hsplit]; rfl, ?_, hlb⟩
      intro m hm p hp hpt
      rcases List.mem_cons.mp hm with rfl | hm
      · rw [hk] at hp
        exact absurd hp (by simp)
      · exact hla m hm p hp hpt
    | some o =>
      rw [hk] at h
      simp only at h
      by_cases hteam : o.team_name = u.team_name
      · rw [if_pos hteam] at h
        obtain ⟨o', ho, ht, hd, la, lb, hsplit, hla, hlb⟩ := ih j d h
        refine ⟨o', ho, ht, hd, k :: la, lb, by rw [hsplit]; rfl, ?_, hlb⟩
        intro m hm p hp hpt
        rcases List.mem_cons.mp hm with rfl | hm
        · rw [hk] at hp
          cases hp
          exact absurd hteam hpt
        · exact hla m hm p hp hpt
      · rw [if_neg hteam] at h
        rcases findNearest_acc_spec u us rest k (u.distance_to o) j d h with
          ⟨rfl, hdd, hmin⟩ | ⟨o', ho, ht, hd, hlt, la, lb, hsplit, hla, hlb⟩
        · refine ⟨o, hk, hteam, hdd, [], rest, rfl, by simp, ?_⟩
          intro m hm p hp hpt
          exact hdd ▸ hmin m hm p hp hpt
        · refine ⟨o', ho, ht, hd, k :: la, lb, by rw [hsplit]; rfl, ?_, hlb⟩
          intro m hm p hp hpt
          rcases List.mem_cons.mp hm with rfl | hm
          · rw [hk] at hp
            cases hp
            exact hlt
          · exact hla m hm p hp hpt

/-- Claim C4: when the targeting scan of the Combat Resolver returns a
target, that target is an entry of the scanned snapshot index list, is of
a different team, lies at minimal Euclidean distance among all different
team snapshot entries, and in case of ties it is the first such entry in
snapshot iteration order (every strictly earlier enemy entry is strictly
farther away). -/
theorem c4_nearest_enemy_first_min (u : Unit) (us : List Unit) (idxs : List ℕ)
    (j : ℕ) (d : ℝ) (h : findNearest u us idxs none = some (j, d)) :
    ∃ o : Unit, us[j]? = some o ∧ o.team_name ≠ u.team_name ∧ d = u.distance_to o ∧
      j ∈ idxs ∧
      (∀ k ∈ idxs, ∀ p : Unit, us[k]? = some p → p.team_name ≠ u.team_name →
        d ≤ u.distance_to p) ∧
      ∃ la lb, idxs = la ++ j :: lb ∧
        ∀ k ∈ la, ∀ p : Unit, us[k]? = some p → p.team_name ≠ u.team_name →
          d < u.distance_to p := by
  obtain ⟨o, ho, ht, hd, la, lb, hsplit, hla, hlb⟩ := findNearest_spec u us idxs j d h
  refine ⟨o, ho, ht, hd, ?_, ?_, la, lb, hsplit, hla⟩
  · rw [hsplit]
    exact List.mem_append.mpr (Or.inr (List.mem_cons_self _ _))
  · intro m hm p hp hpt
    rw [hsplit] at hm
    rcases List.mem_append.mp hm with hm | hm
    · exact le_of_lt (hla m hm p hp hpt)
    · rcases List.mem_cons.mp hm with rfl | hm
      · rw [ho] at hp
        cases hp
        exact le_of_eq hd
      · exact hlb m hm p hp hpt

/-- Claim C4 witness: for a unit of team `A` at the origin scanning the
snapshot `[self, enemy at (3, 0)]`, the scan returns index `1` at
distance `3`, and the theorem instantiates there. -/
theorem c4_nearest_enemy_first_min_witness :
    ∃ o : Unit,
      ([unitOf "a" "A" 0 0 10 1 5 1 1 0, unitOf "b" "B" 3 0 10 1 5 1 1 0][1]? = some o) ∧
      o.team_name ≠ (unitOf "a" "A" 0 0 10 1 5 1 1 0).team_name ∧
      (3 : ℝ) = (unitOf "a" "A" 0 0 10 1 5 1 1 0).distance_to o ∧
      1 ∈ [0, 1] ∧
      (∀ k ∈ [0, 1], ∀ p : Unit,
        [unitOf "a" "A" 0 0 10 1 5 1 1 0, unitOf "b" "B" 3 0 10 1 5 1 1 0][k]? = some p →
        p.team_name ≠ (unitOf "a" "A" 0 0 10 1 5 1 1 0).team_name →
        (3 : ℝ) ≤ (unitOf "a" "A" 0 0 10 1 5 1 1 0).distance_to p) ∧
      ∃ la lb, [0, 1] = la ++ 1 :: lb ∧
        ∀ k ∈ la, ∀ p : Unit,
          [unitOf "a" "A" 0 0 10 1 5 1 1 0, unitOf "b" "B" 3 0 10 1 5 1 1 0][k]? = some p →
          p.team_name ≠ (unitOf "a" "A" 0 0 10 1 5 1 1 0).team_name →
          (3 : ℝ) < (unitOf "a" "A" 0 0 10 1 5 1 1 0).distance_to p :=
  c4_nearest_enemy_first_min (unitOf "a" "A" 0 0 10 1 5 1 1 0)
    [unitOf "a" "A" 0 0 10 1 5 1 1 0, unitOf "b" "B" 3 0 10 1 5 1 1 0] [0, 1] 1 3
    (by
      have h3 : hypot (-3 : ℝ) 0 = 3 := by
        rw [hypot_axis]
        norm_num
      simp [findNearest, unitOf, Unit.distance_to, h3])

/-- Snapshot `alive_units` (line 179): the units alive at tick start, in stable
list order. -/
def aliveUnits : List Unit → List Unit
  | [] => []
  | u :: rest => if 0 < u.health then u :: aliveUnits rest else aliveUnits rest

/-- Index filter used to model the alive snapshot as the list of indices
(into the full unit collection) of the units alive at tick start; index
based because Python iterates over shared mutable objects, so later units
in the same tick observe mutations made by earlier ones. -/
def aliveFilter (us : List Unit) : List ℕ → List ℕ
  | [] => []
  | k :: rest =>
    match us[k]? with
    | none => aliveFilter us rest
    | some u => if 0 < u.health then k :: aliveFilter us rest else aliveFilter us rest

/-- The alive snapshot of a tick, as indices in stable order. -/
def aliveIndices (us : List Unit) : List ℕ := aliveFilter us (List.range us.length)

/-- Set `teams_still_alive` (line 182), as a duplicate-free list of team
names of alive units in first-appearance order. -/
def aliveTeams (us : List Unit) : List String :=
  ((aliveUnits us).map Unit.team_name).dedup

/-- Constant `FIXED_DT = 1.0 / 60.0` (line 164). -/
def FIXED_DT : ℝ := 1 / 60

/-- One iteration of the per-unit action loop (lines 189-211) for the
unit at index `i`: re-check liveness (line 190), scan the snapshot for
the nearest enemy (lines 193-202), then attack if a nearest enemy exists
within weapon range and the cooldown has elapsed, stay idle if in range
but on cooldown, and otherwise move toward the origin (lines 204-211).
The state is the pair of the unit collection and the damage table. -/
def actUnit (current_time dt : ℝ) (snapshot : List ℕ)
    (s : List Unit × (String → ℝ)) (i : ℕ) : List Unit × (String → ℝ) :=
  match s.1[i]? with
  | none => s
  | some u =>
    if ¬ u.is_alive then s
    else
      match findNearest u s.1 snapshot none with
      | some (j, dj) =>
        if dj ≤ u.weapon_range then
          if current_time - u.last_attack_time ≥ u.weapon_cooldown then
            match s.1[j]? with
            | none => s
            | some o =>
              ((s.1.set j { o with health := o.health - u.weapon_damage }).set i
                  { u with last_attack_time := current_time },
                Function.update s.2 u.type_name (s.2 u.type_name + u.weapon_damage))
          else s
        else (s.1.set i (u.move_toward_origin dt), s.2)
      | none => (s.1.set i (u.move_toward_origin dt), s.2)

/-- The Combat Resolver for one tick: the action loop runs over the alive
snapshot computed once at tick start. -/
def resolveTick (current_time dt : ℝ) (us : List Unit) (dmg : String → ℝ) :
    List Unit × (String → ℝ) :=
  (aliveIndices us).foldl (actUnit current_time dt (aliveIndices us)) (us, dmg)

/-- State of the simulation clock (lines 158-171): the unit collection,
the damage table, the frame counter, the `simulation_running` flag, and
the winner recorded at termination. -/
structure ClockState where
  units : List Unit
  damage_stats : String → ℝ
  frame_counter : ℕ
  simulation_running : Bool
  winner : Option String

/-- Initial clock state: damage table all zeros (defaultdict), frame 0,
running. -/
def initState (us : List Unit) : ClockState :=
  { units := us
    damage_stats := fun _ => 0
    frame_counter := 0
    simulation_running := true
    winner := none }

/-- One iteration of the `while simulation_running` loop (lines 167-211):
compute `current_time = frame_counter * FIXED_DT`, advance the frame
counter, check termination (distinct alive team count at most 1, lines
181-186) and either record the winner and stop, or run the Combat
Resolver.  A stopped clock does not change (the Python loop has exited). -/
def stepClock (s : ClockState) : ClockState :=
  if s.simulation_running then
    if (aliveTeams s.units).length ≤ 1 then
      { s with frame_counter := s.frame_counter + 1
               simulation_running := false
               winner := (aliveTeams s.units).head? }
    else
      { units := (resolveTick (s.frame_counter * FIXED_DT) FIXED_DT s.units s.damage_stats).1
        damage_stats := (resolveTick (s.frame_counter * FIXED_DT) FIXED_DT s.units s.damage_stats).2
        frame_counter := s.frame_counter + 1
        simulation_running := true
        winner := s.winner }
  else s

/-- Iterate the simulation loop a given number of ticks. -/
def runFor (s : ClockState) : ℕ → ClockState
  | 0 => s
  | n + 1 => runFor (stepClock s) n

/-- Claim C6: on a tick where at most one distinct team is alive the
clock transitions to TERMINATED without invoking the Combat Resolver
(units and damage table are untouched), recording the sole remaining
team as winner, or no winner when no team remains; and TERMINATED is
absorbing (a stopped clock never changes again). -/
theorem c6_terminal_tick (s : ClockState) :
    (s.simulation_running = false → stepClock s = s) ∧
    (s.simulation_running = true → (aliveTeams s.units).length ≤ 1 →
      stepClock s = { s with frame_counter := s.frame_counter + 1
                             simulation_running := false
                             winner := (aliveTeams s.units).head? }) ∧
    (s.simulation_running = true → aliveTeams s.units = [] →
      (stepClock s).winner = none) ∧
    (s.simulation_running = true → ∀ tm : String, aliveTeams s.units = [tm] →
      (stepClock s).winner = some tm) := by
  refine ⟨?_, ?_, ?_, ?_⟩
  · intro h
    rw [stepClock, h]
    rfl
  · intro h hle
    rw [stepClock, h]
    simp only [if_true]
    rw [if_pos hle]
  · intro h hnone
    rw [stepClock, h]
    simp only [if_true]
    rw [if_pos (by rw [hnone]; norm_num), hnone]
    rfl
  · intro h tm hone
    rw [stepClock, h]
    simp only [if_true]
    rw [if_pos (by rw [hone]; norm_num), hone]
    rfl

/-- Claim C6 witness: a stopped clock is frozen, and a one-team initial
state terminates with that team as winner. -/
theorem c6_terminal_tick_witness :
    stepClock ⟨[], fun _ => 0, 5, false, some "A"⟩ = ⟨[], fun _ => 0, 5, false, some "A"⟩ ∧
    (stepClock (initState [mkUnit "a" "A" 0 0 ⟨5, 1, 1, 1, 1⟩])).winner = some "A" :=
  ⟨(c6_terminal_tick ⟨[], fun _ => 0, 5, false, some "A"⟩).1 rfl,
   (c6_terminal_tick (initState [mkUnit "a" "A" 0 0 ⟨5, 1, 1, 1, 1⟩])).2.2.2 rfl "A"
      (by norm_num [aliveTeams, aliveUnits, mkUnit, initState])⟩

/-- Claim C1 (amended): liveness IS re-checked before each unit acts
(line 190): when the action loop reaches a unit whose health has been
driven to zero or below earlier in the same tick, that unit is skipped
and performs no action at all (the state is untouched by its slot). -/
theorem c1_amended_dead_unit_skipped (t dt : ℝ) (snapshot : List ℕ)
    (s : List Unit × (String → ℝ)) (i : ℕ) (u : Unit)
    (hu : s.1[i]? = some u) (hdead : ¬ u.is_alive) :
    actUnit t dt snapshot s i = s := by
  rw [actUnit.eq_def, hu]
  simp only
  rw [if_pos hdead]

/-- Claim C1 witness: a unit at health `-90` reached by the loop leaves
the state unchanged. -/
theorem c1_amended_dead_unit_skipped_witness :
    actUnit 0 FIXED_DT [0, 1]
        ([unitOf "atk" "A" 0 0 10 1 5 100 1 0, unitOf "vic" "B" 1 0 (-90) 1 5 7 1 0],
          fun _ => 0) 1 =
      ([unitOf "atk" "A" 0 0 10 1 5 100 1 0, unitOf "vic" "B" 1 0 (-90) 1 5 7 1 0],
        fun _ => 0) :=
  c1_amended_dead_unit_skipped 0 FIXED_DT [0, 1] _ 1 (unitOf "vic" "B" 1 0 (-90) 1 5 7 1 0)
    (by simp) (by norm_num [Unit.is_alive, unitOf])

/-- Claim C2 (amended): a unit alive at its turn with no enemy inside its
weapon range does not attack — no health and no damage-table entry is
touched by its action — but it DOES move: regardless of the cooldown
state its slot is replaced by the movement fallback toward the origin. -/
theorem c2_amended_out_of_range_moves (t dt : ℝ) (snapshot : List ℕ)
    (s : List Unit × (String → ℝ)) (i : ℕ) (u : Unit)
    (hu : s.1[i]? = some u) (halive : u.is_alive)
    (hout : findNearest u s.1 snapshot none = none ∨
      ∃ j dj, findNearest u s.1 snapshot none = some (j, dj) ∧ u.weapon_range < dj) :
    actUnit t dt snapshot s i = (s.1.set i (u.move_toward_origin dt), s.2) := by
  rw [actUnit.eq_def, hu]
  simp only
  rw [if_neg (by exact fun hcon => hcon halive)]
  rcases hout with hnone | ⟨j, dj, hsome, hfar⟩
  · rw [hnone]
  · rw [hsome]
    simp only
    rw [if_neg (not_le.mpr hfar)]

/-- Claim C5: a unit alive at its turn whose nearest enemy is within its
weapon range never moves that tick: if the cooldown has elapsed it
attacks (only a health field, its own `last_attack_time` and the damage
table change — the positions of every unit, its own included, are left
exactly as they were), and if the cooldown has not elapsed it does
nothing at all. -/
theorem c5_in_range_attack_or_idle (t dt : ℝ) (snapshot : List ℕ)
    (s : List Unit × (String → ℝ)) (i j : ℕ) (u : Unit) (dj : ℝ)
    (hu : s.1[i]? = some u) (halive : u.is_alive)
    (hfn : findNearest u s.1 snapshot none = some (j, dj)) (hin : dj ≤ u.weapon_range) :
    (t - u.last_attack_time ≥ u.weapon_cooldown →
      (∃ o : Unit, s.1[j]? = some o ∧
        actUnit t dt snapshot s i =
          ((s.1.set j { o with health := o.health - u.weapon_damage }).set i
              { u with last_attack_time := t },
            Function.update s.2 u.type_name (s.2 u.type_name + u.weapon_damage))) ∧
      (∀ k : ℕ, ((actUnit t dt snapshot s i).1[k]?).map Unit.x = (s.1[k]?).map Unit.x ∧
        ((actUnit t dt snapshot s i).1[k]?).map Unit.y = (s.1[k]?).map Unit.y)) ∧
    (¬ t - u.last_attack_time ≥ u.weapon_cooldown → actUnit t dt snapshot s i = s) := by
  obtain ⟨o, ho, hot, hdo, -⟩ := findNearest_spec u s.1 snapshot j dj hfn
  have hact : ∀ hcool : t - u.last_attack_time ≥ u.weapon_cooldown,
      actUnit t dt snapshot s i =
        ((s.1.set j { o with health := o.health - u.weapon_damage }).set i
            { u with last_attack_time := t },
          Function.update s.2 u.type_name (s.2 u.type_name + u.weapon_damage)) := by
    intro hcool
    rw [actUnit.eq_def, hu]
    simp only
    rw [if_neg (by exact fun hcon => hcon halive), hfn]
    simp only
    rw [if_pos hin, if_pos hcool, ho]
  constructor
  · intro hcool
    refine ⟨⟨o, ho, hact hcool⟩, ?_⟩
    intro k
    rw [hact hcool]
    by_cases hki : k = i
    · subst hki
      have hilen : k < s.1.length := by
        by_contra hcon
        rw [List.getElem?_eq_none (le_of_not_lt hcon)] at hu
        exact Option.noConfusion hu
      have hilen2 : k < (s.1.set j { o with health := o.health - u.weapon_damage }).length := by
        simpa using hilen
      rw [List.getElem?_set_eq_of_lt _ hilen2, hu]
      constructor <;> rfl
    · rw [List.getElem?_set_ne (fun hcon => hki hcon.symm)]
      by_cases hkj : k = j
      · subst hkj
        have hjlen : k < s.1.length := by
          by_contra hcon
          rw [List.getElem?_eq_none (le_of_not_lt hcon)] at ho
          exact Option.noConfusion ho
        rw [List.getElem?_set_eq_of_lt _ hjlen, ho]
        constructor <;> rfl
      · rw [List.getElem?_set_ne (fun hcon => hkj hcon.symm)]
        exact ⟨rfl, rfl⟩
  · intro hcool
    rw [actUnit.eq_def, hu]
    simp only
    rw [if_neg (by exact fun hcon => hcon halive), hfn]
    simp only
    rw [if_pos hin, if_neg hcool]

/-- Claim C2 witness: a unit at `(10, 0)` with range `1`, cooldown not
elapsed, whose only enemy is at `(-10, 0)` (distance 20), moves. -/
theorem c2_amended_out_of_range_moves_witness :
    actUnit 0 FIXED_DT [0, 1]
        ([unitOf "a" "A" 10 0 10 60 1 1 5 0, unitOf "b" "B" (-10) 0 10 1 1 1 1 0],
          fun _ => 0) 0 =
      (([unitOf "a" "A" 10 0 10 60 1 1 5 0, unitOf "b" "B" (-10) 0 10 1 1 1 1 0] :
          List Unit).set 0 ((unitOf "a" "A" 10 0 10 60 1 1 5 0).move_toward_origin FIXED_DT),
        fun _ => 0) :=
  c2_amended_out_of_range_moves 0 FIXED_DT [0, 1]
    ([unitOf "a" "A" 10 0 10 60 1 1 5 0, unitOf "b" "B" (-10) 0 10 1 1 1 1 0], fun _ => 0)
    0 (unitOf "a" "A" 10 0 10 60 1 1 5 0)
    (by simp) (by norm_num [Unit.is_alive, unitOf])
    (Or.inr ⟨1, 20,
      by
        have h20 : hypot ((10 : ℝ) + 10) 0 = 20 := by
          rw [show ((10 : ℝ) + 10) = 20 by norm_num, hypot_axis]
          norm_num
        simp [findNearest, unitOf, Unit.distance_to, h20],
      by norm_num [unitOf]⟩)

/-- Claim C5 witness: an in-range attacker with elapsed cooldown leaves
the position of its target (and every unit) unchanged. -/
theorem c5_in_range_attack_or_idle_witness :
    ((actUnit 2 FIXED_DT [0, 1]
        ([unitOf "a" "A" 0 0 10 1 5 4 1 0, unitOf "b" "B" 3 0 10 1 5 1 1 0],
          fun _ => 0) 0).1[1]?).map Unit.x =
      (([unitOf "a" "A" 0 0 10 1 5 4 1 0, unitOf "b" "B" 3 0 10 1 5 1 1 0] :
          List Unit)[1]?).map Unit.x ∧
    ((actUnit 2 FIXED_DT [0, 1]
        ([unitOf "a" "A" 0 0 10 1 5 4 1 0, unitOf "b" "B" 3 0 10 1 5 1 1 0],
          fun _ => 0) 0).1[1]?).map Unit.y =
      (([unitOf "a" "A" 0 0 10 1 5 4 1 0, unitOf "b" "B" 3 0 10 1 5 1 1 0] :
          List Unit)[1]?).map Unit.y :=
  ((c5_in_range_attack_or_idle 2 FIXED_DT [0, 1]
      ([unitOf "a" "A" 0 0 10 1 5 4 1 0, unitOf "b" "B" 3 0 10 1 5 1 1 0], fun _ => 0)
      0 1 (unitOf "a" "A" 0 0 10 1 5 4 1 0) 3
      (by simp) (by norm_num [Unit.is_alive, unitOf])
      (by
        have h3 : hypot (-3 : ℝ) 0 = 3 := by
          rw [hypot_axis]
          norm_num
        simp [findNearest, unitOf, Unit.distance_to, h3])
      (by norm_num [unitOf])).1 (by norm_num [unitOf])).2 1

/-- Claim C1 counterexample: the victim (team B, health 10) is alive at
tick start; the attacker (team A, damage 100, processed first) kills it
within the tick; contrary to the claim the victim does NOT perform its
scheduled attack: after the tick the attacker still has its full health
10 and the damage total of the victim type is 0 (the claim predicts 7
damage dealt by the victim).  Line 190 re-checks liveness per unit. -/
theorem c1_counterexample :
    0 < (mkUnit "vic" "B" 1 0 ⟨10, 1, 5, 7, 1⟩).health ∧
    (((stepClock (initState [mkUnit "atk" "A" 0 0 ⟨10, 1, 5, 100, 1⟩,
        mkUnit "vic" "B" 1 0 ⟨10, 1, 5, 7, 1⟩])).units[1]?).map Unit.health =
      some (-90)) ∧
    (((stepClock (initState [mkUnit "atk" "A" 0 0 ⟨10, 1, 5, 100, 1⟩,
        mkUnit "vic" "B" 1 0 ⟨10, 1, 5, 7, 1⟩])).units[0]?).map Unit.health =
      some 10) ∧
    (stepClock (initState [mkUnit "atk" "A" 0 0 ⟨10, 1, 5, 100, 1⟩,
        mkUnit "vic" "B" 1 0 ⟨10, 1, 5, 7, 1⟩])).damage_stats "vic" = 0 := by
  have h1 : hypot (-1 : ℝ) 0 = 1 := by
    rw [hypot_axis]
    norm_num
  have hr : List.range 2 = [0, 1] := rfl
  have hBA : ¬ ("B" : String) = "A" := by decide
  have hAB : ¬ ("A" : String) = "B" := by decide
  have hVA : ¬ ("vic" : String) = "atk" := by decide
  refine ⟨by norm_num [mkUnit], ?_⟩
  norm_num [stepClock, initState, resolveTick, aliveIndices, aliveFilter, aliveTeams,
    aliveUnits, actUnit, findNearest, mkUnit, Unit.is_alive, Unit.distance_to,
    FIXED_DT, Function.update_apply, h1, hr, hBA, hAB, hVA]

/-- Claim C2 counterexample: at the tick with `current_time = 1/60` the
team-A unit at `(10, 0)` (range 1, cooldown 5, last attack at time 0) has
its only enemy at distance 20 — out of range — and its cooldown has NOT
elapsed; the claim says it neither moves nor attacks, but the code moves
it: its x coordinate becomes 9, not 10. -/
theorem c2_counterexample :
    (((1 : ℕ) : ℝ) * FIXED_DT - (unitOf "a" "A" 10 0 10 60 1 1 5 0).last_attack_time <
      (unitOf "a" "A" 10 0 10 60 1 1 5 0).weapon_cooldown) ∧
    ((unitOf "a" "A" 10 0 10 60 1 1 5 0).weapon_range <
      (unitOf "a" "A" 10 0 10 60 1 1 5 0).distance_to
        (unitOf "b" "B" (-10) 0 10 60 1 1 5 0)) ∧
    (((stepClock ⟨[unitOf "a" "A" 10 0 10 60 1 1 5 0,
        unitOf "b" "B" (-10) 0 10 60 1 1 5 0], fun _ => 0, 1, true, none⟩).units[0]?).map
          Unit.x = some 9) ∧
    (9 : ℝ) ≠ 10 := by
  have h10 : hypot (10 : ℝ) 0 = 10 := by
    rw [hypot_axis]
    norm_num
  have hm10 : hypot (-10 : ℝ) 0 = 10 := by
    rw [hypot_axis]
    norm_num
  have h20 : hypot ((10 : ℝ) + 10) 0 = 20 := by
    rw [show ((10 : ℝ) + 10) = 20 by norm_num, hypot_axis]
    norm_num
  have h19 : hypot (-(10 : ℝ) - 9) 0 = 19 := by
    rw [show (-(10 : ℝ) - 9) = -19 by norm_num, hypot_axis]
    norm_num
  have h20a : hypot (20 : ℝ) 0 = 20 := by
    rw [hypot_axis]
    norm_num
  have h19a : hypot (-19 : ℝ) 0 = 19 := by
    rw [hypot_axis]
    norm_num
  have hr : List.range 2 = [0, 1] := rfl
  have hBA : ¬ ("B" : String) = "A" := by decide
  have hAB : ¬ ("A" : String) = "B" := by decide
  refine ⟨by norm_num [unitOf, FIXED_DT], ?_, ?_, by norm_num⟩
  · norm_num [unitOf, Unit.distance_to, h20, h20a]
  · norm_num [stepClock, resolveTick, aliveIndices, aliveFilter, aliveTeams,
      aliveUnits, actUnit, findNearest, unitOf, Unit.is_alive, Unit.distance_to,
      Unit.move_toward_origin, FIXED_DT, h10, hm10, h20, h19, h20a, h19a, hr, hBA, hAB]

/-- Pointwise frame preservation between two unit collections: same
length, and slot by slot the team, the type and the weapon damage agree
(the action loop never changes these fields). -/
def SameFrame (us2 us0 : List Unit) : Prop :=
  us2.length = us0.length ∧
  ∀ k : ℕ, ∀ u u2 : Unit, us0[k]? = some u → us2[k]? = some u2 →
    u2.team_name = u.team_name ∧ u2.type_name = u.type_name ∧
    u2.weapon_damage = u.weapon_damage

/-- Pointwise health domination: slot by slot the health has not
increased. -/
def HealthLE (us2 us0 : List Unit) : Prop :=
  ∀ k : ℕ, ∀ u u2 : Unit, us0[k]? = some u → us2[k]? = some u2 →
    u2.health ≤ u.health

/-- Total health of a collection. -/
def healthSum (us : List Unit) : ℝ := (us.map Unit.health).sum

/-- Total of the damage table over a finite set of type names. -/
def damageSum (L : Finset String) (f : String → ℝ) : ℝ := ∑ a ∈ L, f a

theorem sameFrame_refl (us : List Unit) : SameFrame us us := by
  refine ⟨rfl, ?_⟩
  intro k u u2 h1 h2
  rw [h1] at h2
  cases h2
  exact ⟨rfl, rfl, rfl⟩

theorem healthLE_refl (us : List Unit) : HealthLE us us := by
  intro k u u2 h1 h2
  rw [h1] at h2
  cases h2
  exact le_refl _

/-- Movement changes only the coordinates. -/
theorem move_toward_origin_fields (u : Unit) (dt : ℝ) :
    (u.move_toward_origin dt).team_name = u.team_name ∧
    (u.move_toward_origin dt).type_name = u.type_name ∧
    (u.move_toward_origin dt).health = u.health ∧
    (u.move_toward_origin dt).weapon_damage = u.weapon_damage := by
  rw [Unit.move_toward_origin]
  split_ifs <;> exact ⟨rfl, rfl, rfl, rfl⟩

theorem getElem?_lt_length {us : List Unit} {i : ℕ} {u : Unit}
    (h : us[i]? = some u) : i < us.length := by
  by_contra hcon
  rw [List.getElem?_eq_none (le_of_not_lt hcon)] at h
  exact Option.noConfusion h

theorem healthSum_set (us : List Unit) (j : ℕ) (a u : Unit) (h : us[j]? = some u) :
    healthSum (us.set j a) = healthSum us - u.health + a.health := by
  induction us generalizing j with
  | nil => simp at h
  | cons v rest ih =>
    cases j with
    | zero =>
      simp only [List.getElem?_cons_zero] at h
      cases h
      simp only [List.set_cons_zero, healthSum, List.map_cons, List.sum_cons]
      ring
    | succ n =>
      simp only [List.getElem?_cons_succ] at h
      simp only [List.set_cons_succ, healthSum, List.map_cons, List.sum_cons]
      have := ih n h
      simp only [healthSum] at this
      rw [this]
      ring

theorem damageSum_update (L : Finset String) (f : String → ℝ) (a : String) (v : ℝ)
    (ha : a ∈ L) :
    damageSum L (Function.update f a (f a + v)) = damageSum L f + v := by
  rw [damageSum, damageSum, Finset.sum_update_of_mem ha,
    Finset.sdiff_singleton_eq_erase, ← Finset.add_sum_erase _ f ha]
  ring

theorem sameFrame_set {us2 us0 : List Unit} {i : ℕ} {u : Unit}
    (hs : SameFrame us2 us0) (hu : us2[i]? = some u) (a : Unit)
    (hteam : a.team_name = u.team_name) (hty : a.type_name = u.type_name)
    (hwd : a.weapon_damage = u.weapon_damage) :
    SameFrame (us2.set i a) us0 := by
  refine ⟨by simpa using hs.1, ?_⟩
  intro k w w2 h0 h2
  by_cases hki : k = i
  · subst hki
    rw [List.getElem?_set_eq_of_lt _ (getElem?_lt_length hu)] at h2
    cases h2
    obtain ⟨e1, e2, e3⟩ := hs.2 k w u h0 hu
    exact ⟨hteam.trans e1, hty.trans e2, hwd.trans e3⟩
  · rw [List.getElem?_set_ne (fun hcon => hki hcon.symm)] at h2
    exact hs.2 k w w2 h0 h2

theorem healthLE_set {us2 us0 : List Unit} {i : ℕ} {u : Unit}
    (hs : HealthLE us2 us0) (hu : us2[i]? = some u) (a : Unit)
    (hh : a.health ≤ u.health) :
    HealthLE (us2.set i a) us0 := by
  intro k w w2 h0 h2
  by_cases hki : k = i
  · subst hki
    rw [List.getElem?_set_eq_of_lt _ (getElem?_lt_length hu)] at h2
    cases h2
    exact le_trans hh (hs k w u h0 hu)
  · rw [List.getElem?_set_ne (fun hcon => hki hcon.symm)] at h2
    exact hs k w w2 h0 h2

/-- The three possible outcomes of one action-loop iteration: skip (dead
slot, empty slot, or in-range with cooldown not elapsed), movement
fallback, or attack on a different-team target. -/
theorem actUnit_cases (t dt : ℝ) (snap : List ℕ) (s : List Unit × (String → ℝ)) (i : ℕ) :
    actUnit t dt snap s i = s ∨
    (∃ u : Unit, s.1[i]? = some u ∧
      actUnit t dt snap s i = (s.1.set i (u.move_toward_origin dt), s.2)) ∨
    (∃ u : Unit, ∃ j : ℕ, ∃ o : Unit, s.1[i]? = some u ∧ s.1[j]? = some o ∧
      o.team_name ≠ u.team_name ∧
      actUnit t dt snap s i =
        ((s.1.set j { o with health := o.health - u.weapon_damage }).set i
            { u with last_attack_time := t },
          Function.update s.2 u.type_name (s.2 u.type_name + u.weapon_damage))) := by
  rw [actUnit.eq_def]
  cases h1 : s.1[i]? with
  | none => exact Or.inl rfl
  | some u =>
    simp only
    by_cases h2 : u.is_alive
    · rw [if_neg (fun hcon => hcon h2)]
      cases h3 : findNearest u s.1 snap none with
      | none => exact Or.inr (Or.inl ⟨u, rfl, rfl⟩)
      | some jd =>
        obtain ⟨j, dj⟩ := jd
        simp only
        by_cases h4 : dj ≤ u.weapon_range
        · rw [if_pos h4]
          by_cases h5 : t - u.last_attack_time ≥ u.weapon_cooldown
          · rw [if_pos h5]
            cases h6 : s.1[j]? with
            | none => exact Or.inl rfl
            | some o =>
              obtain ⟨o2, ho2, hteam2, -, -⟩ := findNearest_spec u s.1 snap j dj h3
              rw [ho2] at h6
              have ho2o : o2 = o := Option.some.inj h6
              subst ho2o
              exact Or.inr (Or.inr ⟨u, j, o2, rfl, ho2, hteam2, rfl⟩)
          · rw [if_neg h5]
            exact Or.inl rfl
        · rw [if_neg h4]
          exact Or.inr (Or.inl ⟨u, rfl, rfl⟩)
    · rw [if_pos h2]
      exact Or.inl rfl

/-- One action-loop iteration preserves the frame, conserves
`damage total + health total`, and (for nonnegative weapon damage) never
increases any health. -/
theorem actUnit_invariant (t dt : ℝ) (snap : List ℕ) (us0 : List Unit) (L : Finset String)
    (h0ty : ∀ k : ℕ, ∀ u : Unit, us0[k]? = some u → u.type_name ∈ L)
    (s : List Unit × (String → ℝ)) (i : ℕ) (hs : SameFrame s.1 us0) :
    SameFrame (actUnit t dt snap s i).1 us0 ∧
    damageSum L (actUnit t dt snap s i).2 + healthSum (actUnit t dt snap s i).1 =
      damageSum L s.2 + healthSum s.1 ∧
    ((∀ k : ℕ, ∀ u : Unit, us0[k]? = some u → 0 ≤ u.weapon_damage) →
      HealthLE s.1 us0 → HealthLE (actUnit t dt snap s i).1 us0) := by
  rcases actUnit_cases t dt snap s i with heq | ⟨u, hu, heq⟩ | ⟨u, j, o, hu, ho, hne, heq⟩
  · rw [heq]
    exact ⟨hs, rfl, fun _ hh => hh⟩
  · obtain ⟨f1, f2, f3, f4⟩ := move_toward_origin_fields u dt
    rw [heq]
    refine ⟨sameFrame_set hs hu _ f1 f2 f4, ?_,
      fun _ hh => healthLE_set hh hu _ (le_of_eq f3)⟩
    simp only
    rw [healthSum_set s.1 i _ u hu, f3]
    ring
  · have hij : j ≠ i := by
      intro hcon
      subst hcon
      rw [hu] at ho
      cases ho
      exact hne rfl
    have hmid : (s.1.set j { o with health := o.health - u.weapon_damage })[i]? = some u := by
      rw [List.getElem?_set_ne hij]
      exact hu
    have hilen0 : i < us0.length := hs.1 ▸ getElem?_lt_length hu
    have h0i : us0[i]? = some (us0[i]) := List.getElem?_eq_getElem hilen0
    obtain ⟨e1, e2, e3⟩ := hs.2 i (us0[i]) u h0i hu
    have htyL : u.type_name ∈ L := e2 ▸ h0ty i (us0[i]) h0i
    rw [heq]
    refine ⟨?_, ?_, ?_⟩
    · exact sameFrame_set
        (sameFrame_set hs ho { o with health := o.health - u.weapon_damage } rfl rfl rfl)
        hmid { u with last_attack_time := t } rfl rfl rfl
    · simp only
      rw [damageSum_update L s.2 u.type_name u.weapon_damage htyL,
        healthSum_set _ i _ u hmid, healthSum_set s.1 j _ o ho]
      show damageSum L s.2 + u.weapon_damage +
          (healthSum s.1 - o.health + (o.health - u.weapon_damage) -
            u.health + u.health) = damageSum L s.2 + healthSum s.1
      ring
    · intro hwd hh
      have hwdu : 0 ≤ u.weapon_damage := e3 ▸ hwd i (us0[i]) h0i
      exact healthLE_set
        (healthLE_set hh ho { o with health := o.health - u.weapon_damage }
          (by simp only; linarith))
        hmid { u with last_attack_time := t } le_rfl

/-- The action fold over any index list preserves the invariants of
`actUnit_invariant`. -/
theorem foldl_actUnit_invariant (t dt : ℝ) (snap : List ℕ) (us0 : List Unit)
    (L : Finset String)
    (h0ty : ∀ k : ℕ, ∀ u : Unit, us0[k]? = some u → u.type_name ∈ L) :
    ∀ (idxs : List ℕ) (s : List Unit × (String → ℝ)), SameFrame s.1 us0 →
      SameFrame (idxs.foldl (actUnit t dt snap) s).1 us0 ∧
      damageSum L (idxs.foldl (actUnit t dt snap) s).2 +
          healthSum (idxs.foldl (actUnit t dt snap) s).1 =
        damageSum L s.2 + healthSum s.1 ∧
      ((∀ k : ℕ, ∀ u : Unit, us0[k]? = some u → 0 ≤ u.weapon_damage) →
        HealthLE s.1 us0 → HealthLE (idxs.foldl (actUnit t dt snap) s).1 us0) := by
  intro idxs
  induction idxs with
  | nil =>
    intro s hs
    exact ⟨hs, rfl, fun _ hh => hh⟩
  | cons k rest ih =>
    intro s hs
    rw [List.foldl_cons]
    obtain ⟨h1, h2, h3⟩ := actUnit_invariant t dt snap us0 L h0ty s k hs
    obtain ⟨g1, g2, g3⟩ := ih (actUnit t dt snap s k) h1
    exact ⟨g1, by rw [g2, h2], fun hwd hh => g3 hwd (h3 hwd hh)⟩

/-- The Combat Resolver preserves the frame, conserves
`damage total + health total`, and with nonnegative damage values never
increases any health. -/
theorem resolveTick_invariant (t dt : ℝ) (us : List Unit) (dmg : String → ℝ)
    (L : Finset String)
    (h0ty : ∀ k : ℕ, ∀ u : Unit, us[k]? = some u → u.type_name ∈ L) :
    SameFrame (resolveTick t dt us dmg).1 us ∧
    damageSum L (resolveTick t dt us dmg).2 + healthSum (resolveTick t dt us dmg).1 =
      damageSum L dmg + healthSum us ∧
    ((∀ k : ℕ, ∀ u : Unit, us[k]? = some u → 0 ≤ u.weapon_damage) →
      HealthLE (resolveTick t dt us dmg).1 us) := by
  obtain ⟨h1, h2, h3⟩ := foldl_actUnit_invariant t dt (aliveIndices us) us L h0ty
    (aliveIndices us) (us, dmg) (sameFrame_refl us)
  exact ⟨h1, h2, fun hwd => h3 hwd (healthLE_refl us)⟩

theorem mem_aliveUnits {us : List Unit} {u : Unit} :
    u ∈ aliveUnits us ↔ u ∈ us ∧ 0 < u.health := by
  induction us with
  | nil => simp [aliveUnits]
  | cons v rest ih =>
    rw [aliveUnits]
    by_cases hv : 0 < v.health
    · rw [if_pos hv]
      simp only [List.mem_cons, ih]
      constructor
      · rintro (rfl | ⟨hm, hh⟩)
        · exact ⟨Or.inl rfl, hv⟩
        · exact ⟨Or.inr hm, hh⟩
      · rintro ⟨rfl | hm, hh⟩
        · exact Or.inl rfl
        · exact Or.inr ⟨hm, hh⟩
    · rw [if_neg hv]
      simp only [List.mem_cons, ih]
      constructor
      · rintro ⟨hm, hh⟩
        exact ⟨Or.inr hm, hh⟩
      · rintro ⟨rfl | hm, hh⟩
        · exact absurd hh hv
        · exact ⟨hm, hh⟩

/-- Case analysis on the clock step at the level of the unit collection. -/
theorem stepClock_units_cases (s : ClockState) :
    (stepClock s).units = s.units ∨
    (s.simulation_running = true ∧
      (stepClock s).units =
        (resolveTick (s.frame_counter * FIXED_DT) FIXED_DT s.units s.damage_stats).1) := by
  rw [stepClock]
  by_cases hrun : s.simulation_running = true
  · rw [if_pos hrun]
    by_cases hle : (aliveTeams s.units).length ≤ 1
    · rw [if_pos hle]
      exact Or.inl rfl
    · rw [if_neg hle]
      exact Or.inr ⟨hrun, rfl⟩
  · rw [if_neg hrun]
    exact Or.inl rfl

/-- Claim C8 (amended): the distinct alive team count never increases
from one tick to the next (every team alive after a tick was alive before
it), for any state whose units all have nonnegative weapon damage.
Termination itself does NOT hold for every valid configuration — see the
separate counterexample with all stats positive. -/
theorem c8_amended_teams_nonincreasing (s : ClockState)
    (hwd : ∀ u ∈ s.units, 0 ≤ u.weapon_damage) :
    (∀ tm : String, tm ∈ aliveTeams (stepClock s).units → tm ∈ aliveTeams s.units) ∧
    (aliveTeams (stepClock s).units).length ≤ (aliveTeams s.units).length := by
  have key : ∀ us2 : List Unit, SameFrame us2 s.units → HealthLE us2 s.units →
      ∀ tm : String, tm ∈ aliveTeams us2 → tm ∈ aliveTeams s.units := by
    intro us2 hsf hhl tm htm
    rw [aliveTeams, List.mem_dedup, List.mem_map] at htm
    obtain ⟨u2, hu2mem, rfl⟩ := htm
    rw [mem_aliveUnits] at hu2mem
    obtain ⟨hmem, hpos⟩ := hu2mem
    obtain ⟨k, hk⟩ := List.getElem?_of_mem hmem
    have hklen : k < s.units.length := hsf.1 ▸ getElem?_lt_length hk
    have h0 : s.units[k]? = some (s.units[k]) := List.getElem?_eq_getElem hklen
    obtain ⟨e1, e2, e3⟩ := hsf.2 k (s.units[k]) u2 h0 hk
    have hhealth := hhl k (s.units[k]) u2 h0 hk
    rw [aliveTeams, List.mem_dedup, List.mem_map]
    exact ⟨s.units[k],
      mem_aliveUnits.mpr ⟨List.getElem_mem hklen, lt_of_lt_of_le hpos hhealth⟩, e1.symm⟩
  have main : ∀ tm : String, tm ∈ aliveTeams (stepClock s).units → tm ∈ aliveTeams s.units := by
    rcases stepClock_units_cases s with hcase | ⟨hrun, hcase⟩
    · rw [hcase]
      exact fun tm h => h
    · rw [hcase]
      have h0ty : ∀ k : ℕ, ∀ u : Unit, s.units[k]? = some u →
          u.type_name ∈ (s.units.map Unit.type_name).toFinset := by
        intro k u hk
        exact List.mem_toFinset.mpr (List.mem_map.mpr ⟨u, List.getElem?_mem hk, rfl⟩)
      obtain ⟨hsf, -, hhl2⟩ := resolveTick_invariant (s.frame_counter * FIXED_DT) FIXED_DT
        s.units s.damage_stats (s.units.map Unit.type_name).toFinset h0ty
      have hhl := hhl2 (fun k u hk => hwd u (List.getElem?_mem hk))
      exact key _ hsf hhl
  refine ⟨main, ?_⟩
  have hnd : (aliveTeams (stepClock s).units).Nodup := List.nodup_dedup _
  have hsub : (aliveTeams (stepClock s).units).toFinset ⊆ (aliveTeams s.units).toFinset := by
    intro a ha
    simp only [List.mem_toFinset] at ha ⊢
    exact main a ha
  have h4 : (aliveTeams (stepClock s).units).toFinset.card =
      (aliveTeams (stepClock s).units).length := List.toFinset_card_of_nodup hnd
  have h5 := Finset.card_le_card hsub
  have h6 := List.toFinset_card_le (aliveTeams s.units)
  omega

/-- Claim C8 witness: a concrete two-team tick does not increase the
distinct alive team count. -/
theorem c8_amended_teams_nonincreasing_witness :
    (aliveTeams (stepClock (initState [mkUnit "atk" "A" 0 0 ⟨10, 1, 5, 100, 1⟩,
        mkUnit "vic" "B" 1 0 ⟨10, 1, 5, 7, 1⟩])).units).length ≤
      (aliveTeams (initState [mkUnit "atk" "A" 0 0 ⟨10, 1, 5, 100, 1⟩,
        mkUnit "vic" "B" 1 0 ⟨10, 1, 5, 7, 1⟩]).units).length :=
  (c8_amended_teams_nonincreasing
    (initState [mkUnit "atk" "A" 0 0 ⟨10, 1, 5, 100, 1⟩,
      mkUnit "vic" "B" 1 0 ⟨10, 1, 5, 7, 1⟩])
    (by
      intro u hu
      simp only [initState, List.mem_cons, List.not_mem_nil, or_false] at hu
      rcases hu with rfl | rfl <;> norm_num [mkUnit])).2

theorem sameFrame_trans {a b c : List Unit} (h1 : SameFrame a b) (h2 : SameFrame b c) :
    SameFrame a c := by
  refine ⟨h1.1.trans h2.1, ?_⟩
  intro k w w2 hc ha
  have hklen : k < b.length := by
    have hkc := getElem?_lt_length hc
    have := h2.1
    omega
  have hb : b[k]? = some (b[k]) := List.getElem?_eq_getElem hklen
  obtain ⟨e1, e2, e3⟩ := h2.2 k w (b[k]) hc hb
  obtain ⟨f1, f2, f3⟩ := h1.2 k (b[k]) w2 hb ha
  exact ⟨f1.trans e1, f2.trans e2, f3.trans e3⟩

/-- One clock step preserves the frame relative to the initial collection
and conserves `damage total + health total`. -/
theorem stepClock_invariant (us0 : List Unit) (L : Finset String)
    (h0ty : ∀ k : ℕ, ∀ u : Unit, us0[k]? = some u → u.type_name ∈ L)
    (s : ClockState) (hsf : SameFrame s.units us0) :
    SameFrame (stepClock s).units us0 ∧
    damageSum L (stepClock s).damage_stats + healthSum (stepClock s).units =
      damageSum L s.damage_stats + healthSum s.units := by
  rw [stepClock]
  by_cases hrun : s.simulation_running = true
  · rw [if_pos hrun]
    by_cases hle : (aliveTeams s.units).length ≤ 1
    · rw [if_pos hle]
      exact ⟨hsf, rfl⟩
    · rw [if_neg hle]
      have h0ty2 : ∀ k : ℕ, ∀ u : Unit, s.units[k]? = some u → u.type_name ∈ L := by
        intro k u hk
        have hklen0 : k < us0.length := by
          have := getElem?_lt_length hk
          have := hsf.1
          omega
        have h0 : us0[k]? = some (us0[k]) := List.getElem?_eq_getElem hklen0
        obtain ⟨-, e2, -⟩ := hsf.2 k (us0[k]) u h0 hk
        exact e2 ▸ h0ty k (us0[k]) h0
      obtain ⟨g1, g2, -⟩ := resolveTick_invariant (s.frame_counter * FIXED_DT) FIXED_DT
        s.units s.damage_stats L h0ty2
      exact ⟨sameFrame_trans g1 hsf, g2⟩
  · rw [if_neg hrun]
    exact ⟨hsf, rfl⟩

theorem runFor_succ : ∀ (n : ℕ) (s : ClockState),
    runFor s (n + 1) = stepClock (runFor s n) := by
  intro n
  induction n with
  | zero =>
    intro s
    rfl
  | succ m ih =>
    intro s
    calc runFor s (m + 1 + 1) = runFor (stepClock s) (m + 1) := rfl
      _ = stepClock (runFor (stepClock s) m) := ih (stepClock s)
      _ = stepClock (runFor s (m + 1)) := rfl

/-- Along any run from an initial state, the damage table total over a
set of type names covering all unit types plus the total health is
constant (equal to the initial total health, the damage table starting
at zero). -/
theorem runFor_invariant (us0 : List Unit) (L : Finset String)
    (h0ty : ∀ k : ℕ, ∀ u : Unit, us0[k]? = some u → u.type_name ∈ L) :
    ∀ n : ℕ,
      SameFrame (runFor (initState us0) n).units us0 ∧
      damageSum L (runFor (initState us0) n).damage_stats +
        healthSum (runFor (initState us0) n).units = healthSum us0 := by
  intro n
  induction n with
  | zero =>
    refine ⟨sameFrame_refl us0, ?_⟩
    have hz : damageSum L (fun _ => 0) = 0 := by
      simp [damageSum]
    show damageSum L (fun _ => 0) + healthSum us0 = healthSum us0
    rw [hz]
    ring
  | succ m ih =>
    rw [runFor_succ]
    obtain ⟨h1, h2⟩ := ih
    obtain ⟨g1, g2⟩ := stepClock_invariant us0 L h0ty _ h1
    exact ⟨g1, by rw [g2, h2]⟩

/-- Claim C10: units start at `health = maxHealth` (copied by the
constructor), and at every tick boundary the sum of the damage table
over any set of type names covering the types in play equals the total
health lost, i.e. the initial total health minus the current total
health (overkill on both sides included, since an attack subtracts
`weaponDamage` from the target and adds `weaponDamage` to the attacker
type unconditionally). -/
theorem c10_damage_conservation (us0 : List Unit) (L : Finset String) (n : ℕ)
    (h0ty : ∀ u ∈ us0, u.type_name ∈ L) :
    (∀ (tn tm : String) (x y : ℝ) (ut : UnitType),
      (mkUnit tn tm x y ut).health = ut.max_health) ∧
    damageSum L (runFor (initState us0) n).damage_stats =
      healthSum us0 - healthSum (runFor (initState us0) n).units := by
  have h0ty2 : ∀ k : ℕ, ∀ u : Unit, us0[k]? = some u → u.type_name ∈ L :=
    fun k u hk => h0ty u (List.getElem?_mem hk)
  obtain ⟨-, h2⟩ := runFor_invariant us0 L h0ty2 n
  exact ⟨fun _ _ _ _ _ => rfl, by linarith⟩

/-- Claim C10 witness: after one tick of the two-unit duel the damage
table total over both types equals the health lost. -/
theorem c10_damage_conservation_witness :
    damageSum {"atk", "vic"}
        (runFor (initState [mkUnit "atk" "A" 0 0 ⟨10, 1, 5, 100, 1⟩,
          mkUnit "vic" "B" 1 0 ⟨10, 1, 5, 7, 1⟩]) 1).damage_stats =
      healthSum [mkUnit "atk" "A" 0 0 ⟨10, 1, 5, 100, 1⟩,
          mkUnit "vic" "B" 1 0 ⟨10, 1, 5, 7, 1⟩] -
        healthSum (runFor (initState [mkUnit "atk" "A" 0 0 ⟨10, 1, 5, 100, 1⟩,
          mkUnit "vic" "B" 1 0 ⟨10, 1, 5, 7, 1⟩]) 1).units :=
  (c10_damage_conservation
    [mkUnit "atk" "A" 0 0 ⟨10, 1, 5, 100, 1⟩, mkUnit "vic" "B" 1 0 ⟨10, 1, 5, 7, 1⟩]
    {"atk", "vic"} 1
    (by
      intro u hu
      simp only [List.mem_cons, List.not_mem_nil, or_false] at hu
      rcases hu with rfl | rfl <;> simp [mkUnit])).2

/-- Claim C8 counterexample: a valid two-team configuration with all
stats positive on which the simulation never terminates.  Both units sit
inside the movement epsilon dead zone (at x = 1/2000000 and
x = -1/2000000), their mutual distance 1/1000000 exceeds the (positive)
weapon range 1/1000000000, so every tick each unit takes the movement
fallback, which the dead zone turns into a no-op: the state repeats
forever and `simulation_running` stays true at every tick count. -/
theorem c8_counterexample :
    (0 : ℝ) < (⟨100, 1, 1/1000000000, 5, 1⟩ : UnitType).max_health ∧
    (0 : ℝ) < (⟨100, 1, 1/1000000000, 5, 1⟩ : UnitType).move_speed ∧
    (0 : ℝ) < (⟨100, 1, 1/1000000000, 5, 1⟩ : UnitType).weapon_range ∧
    (0 : ℝ) < (⟨100, 1, 1/1000000000, 5, 1⟩ : UnitType).weapon_damage ∧
    (0 : ℝ) < (⟨100, 1, 1/1000000000, 5, 1⟩ : UnitType).weapon_cooldown ∧
    (aliveTeams (initState [mkUnit "sc" "A" (1/2000000) 0 ⟨100, 1, 1/1000000000, 5, 1⟩,
        mkUnit "sc" "B" (-(1/2000000)) 0 ⟨100, 1, 1/1000000000, 5, 1⟩]).units).length = 2 ∧
    ¬ ∃ n : ℕ,
      (runFor (initState [mkUnit "sc" "A" (1/2000000) 0 ⟨100, 1, 1/1000000000, 5, 1⟩,
        mkUnit "sc" "B" (-(1/2000000)) 0 ⟨100, 1, 1/1000000000, 5, 1⟩]) n).simulation_running =
        false := by
  have hE1 : hypot ((1:ℝ)/2000000 + 1/2000000) 0 = 1/1000000 := by
    rw [show ((1:ℝ)/2000000 + 1/2000000) = 1/1000000 by norm_num, hypot_axis]
    norm_num
  have hE2 : hypot (-(1:ℝ)/2000000 - 1/2000000) 0 = 1/1000000 := by
    rw [show (-(1:ℝ)/2000000 - 1/2000000) = -(1/1000000) by norm_num, hypot_axis]
    norm_num
  have hE3 : hypot ((1:ℝ)/1000000) 0 = 1/1000000 := by
    rw [hypot_axis]
    norm_num
  have hE4 : hypot (-(1:ℝ)/1000000) 0 = 1/1000000 := by
    rw [hypot_axis]
    norm_num
  have hE5 : hypot (-((1:ℝ)/1000000)) 0 = 1/1000000 := by
    rw [hypot_axis]
    norm_num
  have hr : List.range 2 = [0, 1] := rfl
  have hBA : ¬ ("B" : String) = "A" := by decide
  have hAB : ¬ ("A" : String) = "B" := by decide
  have hstep : ∀ fc : ℕ,
      stepClock ⟨[mkUnit "sc" "A" (1/2000000) 0 ⟨100, 1, 1/1000000000, 5, 1⟩,
          mkUnit "sc" "B" (-(1/2000000)) 0 ⟨100, 1, 1/1000000000, 5, 1⟩],
        fun _ => 0, fc, true, none⟩ =
      ⟨[mkUnit "sc" "A" (1/2000000) 0 ⟨100, 1, 1/1000000000, 5, 1⟩,
          mkUnit "sc" "B" (-(1/2000000)) 0 ⟨100, 1, 1/1000000000, 5, 1⟩],
        fun _ => 0, fc + 1, true, none⟩ := by
    intro fc
    norm_num [stepClock, resolveTick, aliveIndices, aliveFilter, aliveTeams, aliveUnits,
      actUnit, findNearest, mkUnit, Unit.is_alive, Unit.distance_to, Unit.move_toward_origin,
      FIXED_DT, abs_lt, hE1, hE2, hE3, hE4, hE5, hr, hBA, hAB, List.set_cons_zero,
      List.set_cons_succ]
  have hrunFor : ∀ (n fc : ℕ),
      (runFor ⟨[mkUnit "sc" "A" (1/2000000) 0 ⟨100, 1, 1/1000000000, 5, 1⟩,
          mkUnit "sc" "B" (-(1/2000000)) 0 ⟨100, 1, 1/1000000000, 5, 1⟩],
        fun _ => 0, fc, true, none⟩ n).simulation_running = true := by
    intro n
    induction n with
    | zero =>
      intro fc
      rfl
    | succ m ih =>
      intro fc
      show (runFor (stepClock ⟨[mkUnit "sc" "A" (1/2000000) 0 ⟨100, 1, 1/1000000000, 5, 1⟩,
          mkUnit "sc" "B" (-(1/2000000)) 0 ⟨100, 1, 1/1000000000, 5, 1⟩],
        fun _ => 0, fc, true, none⟩) m).simulation_running = true
      rw [hstep fc]
      exact ih (fc + 1)
  refine ⟨by norm_num, by norm_num, by norm_num, by norm_num, by norm_num, ?_, ?_⟩
  · norm_num [initState, aliveTeams, aliveUnits, mkUnit, hAB, hBA]
  · rintro ⟨n, hn⟩
    have hinit : initState [mkUnit "sc" "A" (1/2000000) 0 ⟨100, 1, 1/1000000000, 5, 1⟩,
        mkUnit "sc" "B" (-(1/2000000)) 0 ⟨100, 1, 1/1000000000, 5, 1⟩] =
      ⟨[mkUnit "sc" "A" (1/2000000) 0 ⟨100, 1, 1/1000000000, 5, 1⟩,
          mkUnit "sc" "B" (-(1/2000000)) 0 ⟨100, 1, 1/1000000000, 5, 1⟩],
        fun _ => 0, 0, true, none⟩ := rfl
    rw [hinit, hrunFor n 0] at hn
    exact Bool.noConfusion hn

/-- A team-member record of the input configuration (lines 115-119).
The required fields `name`, `x`, `y` are present at the type level; the
KeyError path for records missing a field (lines 120-122) is a separate
error not modelled here. -/
structure Member where
  name : String
  x : ℝ
  y : ℝ

/-- The fatal load-time error of lines 123-125: a team member names a
unit type absent from the registry; it carries the offending team and
the unknown type name, mirroring the message
`Unknown unit type NAME in team TEAM`. -/
inductive LoadError where
  | unknownUnitType (team : String) (type_name : String)

/-- Registry lookup (`name not in unit_types` / `unit_types_dict[type_name]`),
the registry being an insertion-ordered association list as a Python dict. -/
def lookupType : List (String × UnitType) → String → Option UnitType
  | [], _ => none
  | (k, v) :: rest, n => if k = n then some v else lookupType rest n

/-- Instantiation of the members of one team (inner loop of lines
114-127): stops at the first member whose type name is not registered. -/
def buildMembers (reg : List (String × UnitType)) (team : String) :
    List Member → Except LoadError (List Unit)
  | [] => .ok []
  | m :: rest =>
    match lookupType reg m.name with
    | none => .error (.unknownUnitType team m.name)
    | some ut =>
      match buildMembers reg team rest with
      | .error e => .error e
      | .ok us => .ok (mkUnit m.name team m.x m.y ut :: us)

/-- Instantiation of all units (outer loop of lines 114-127), teams in
configuration order, flattened into one unit list. -/
def buildAllUnits (reg : List (String × UnitType)) :
    List (String × List Member) → Except LoadError (List Unit)
  | [] => .ok []
  | (team, ms) :: rest =>
    match buildMembers reg team ms with
    | .error e => .error e
    | .ok us =>
      match buildAllUnits reg rest with
      | .error e => .error e
      | .ok vs => .ok (us ++ vs)

/-- Exit status of the loading phase: `sys.exit(1)` on a load error
(line 125), `none` meaning loading succeeded and the program continues. -/
def loadExitCode (reg : List (String × UnitType))
    (teams : List (String × List Member)) : Option ℕ :=
  match buildAllUnits reg teams with
  | .error _ => some 1
  | .ok _ => none

/-- The whole pipeline: load, then (only on success) run the simulation
loop; a load error is reported before any tick runs. -/
def runSimulation (reg : List (String × UnitType))
    (teams : List (String × List Member)) (n : ℕ) : Except LoadError ClockState :=
  match buildAllUnits reg teams with
  | .error e => .error e
  | .ok us => .ok (runFor (initState us) n)

theorem buildMembers_ok (reg : List (String × UnitType)) (team : String) :
    ∀ ms : List Member, (∀ mm ∈ ms, (lookupType reg mm.name).isSome) →
      ∃ us : List Unit, buildMembers reg team ms = .ok us := by
  intro ms
  induction ms with
  | nil => exact fun _ => ⟨[], rfl⟩
  | cons mm rest ih =>
    intro h
    obtain ⟨ut, hut⟩ := Option.isSome_iff_exists.mp (h mm (List.mem_cons_self _ _))
    obtain ⟨us, hus⟩ := ih (fun a ha => h a (List.mem_cons_of_mem _ ha))
    refine ⟨mkUnit mm.name team mm.x mm.y ut :: us, ?_⟩
    simp only [buildMembers]
    rw [hut, hus]

theorem buildMembers_err (reg : List (String × UnitType)) (team : String) :
    ∀ (M1 : List Member) (M2 : List Member) (m : Member),
      (∀ mm ∈ M1, (lookupType reg mm.name).isSome) → lookupType reg m.name = none →
      buildMembers reg team (M1 ++ m :: M2) = .error (.unknownUnitType team m.name) := by
  intro M1
  induction M1 with
  | nil =>
    intro M2 m _ hm
    simp only [List.nil_append, buildMembers]
    rw [hm]
  | cons mm rest ih =>
    intro M2 m h1 hm
    obtain ⟨ut, hut⟩ := Option.isSome_iff_exists.mp (h1 mm (List.mem_cons_self _ _))
    simp only [List.cons_append, buildMembers]
    rw [hut]
    simp only [List.append_eq]
    rw [ih M2 m (fun a ha => h1 a (List.mem_cons_of_mem _ ha)) hm]

/-- Claim C9: if, in configuration order, the first offending team
member names a type absent from the registry (all team members before it
are registered), loading fails with `UnknownUnitTypeError` carrying
exactly that team name and that unknown type name, the process exit
status is 1, and the simulation pipeline yields that error for every
tick budget — no simulation tick ever runs. -/
theorem c9_unknown_type_fatal (reg : List (String × UnitType))
    (T1 T2 : List (String × List Member)) (team : String)
    (M1 M2 : List Member) (m : Member)
    (hT1 : ∀ p ∈ T1, ∀ mm ∈ p.2, (lookupType reg mm.name).isSome)
    (hM1 : ∀ mm ∈ M1, (lookupType reg mm.name).isSome)
    (hm : lookupType reg m.name = none) :
    buildAllUnits reg (T1 ++ (team, M1 ++ m :: M2) :: T2) =
      .error (.unknownUnitType team m.name) ∧
    loadExitCode reg (T1 ++ (team, M1 ++ m :: M2) :: T2) = some 1 ∧
    ∀ n : ℕ, runSimulation reg (T1 ++ (team, M1 ++ m :: M2) :: T2) n =
      .error (.unknownUnitType team m.name) := by
  have hmain : buildAllUnits reg (T1 ++ (team, M1 ++ m :: M2) :: T2) =
      .error (.unknownUnitType team m.name) := by
    induction T1 with
    | nil =>
      simp only [List.nil_append, buildAllUnits]
      rw [buildMembers_err reg team M1 M2 m hM1 hm]
    | cons p rest ih =>
      obtain ⟨tm, ms⟩ := p
      simp only [List.cons_append, buildAllUnits]
      obtain ⟨us, hus⟩ := buildMembers_ok reg tm ms
        (hT1 ⟨tm, ms⟩ (List.mem_cons_self _ _))
      rw [hus]
      simp only [List.append_eq]
      rw [ih (fun q hq => hT1 q (List.mem_cons_of_mem _ hq))]
  refine ⟨hmain, ?_, ?_⟩
  · rw [loadExitCode, hmain]
  · intro n
    rw [runSimulation, hmain]

/-- Claim C9 witness: team Blue references the unregistered type
`dragon`; loading fails naming Blue and dragon, exits with status 1, and
the pipeline yields the error for a 3-tick budget. -/
theorem c9_unknown_type_fatal_witness :
    buildAllUnits [("grunt", ⟨10, 1, 1, 1, 1⟩)]
        [("Red", [⟨"grunt", 0, 0⟩]), ("Blue", [⟨"grunt", 1, 1⟩, ⟨"dragon", 2, 2⟩])] =
      .error (.unknownUnitType "Blue" "dragon") ∧
    loadExitCode [("grunt", ⟨10, 1, 1, 1, 1⟩)]
        [("Red", [⟨"grunt", 0, 0⟩]), ("Blue", [⟨"grunt", 1, 1⟩, ⟨"dragon", 2, 2⟩])] =
      some 1 ∧
    runSimulation [("grunt", ⟨10, 1, 1, 1, 1⟩)]
        [("Red", [⟨"grunt", 0, 0⟩]), ("Blue", [⟨"grunt", 1, 1⟩, ⟨"dragon", 2, 2⟩])] 3 =
      .error (.unknownUnitType "Blue" "dragon") := by
  have h := c9_unknown_type_fatal [("grunt", ⟨10, 1, 1, 1, 1⟩)]
    [("Red", [⟨"grunt", 0, 0⟩])] [] "Blue" [⟨"grunt", 1, 1⟩] [] ⟨"dragon", 2, 2⟩
    (by
      intro p hp
      simp only [List.mem_cons, List.not_mem_nil, or_false] at hp
      subst hp
      intro mm hmm
      simp only [List.mem_cons, List.not_mem_nil, or_false] at hmm
      subst hmm
      simp [lookupType])
    (by
      intro mm hmm
      simp only [List.mem_cons, List.not_mem_nil, or_false] at hmm
      subst hmm
      simp [lookupType])
    (by simp [lookupType])
  exact ⟨h.1, h.2.1, h.2.2 3⟩

end

end RTS
